import Mathlib

/-!
Shallow embedding of the Catch-Me-If-U-Can monitoring agent's core
(rolling evidence buffers, alert store, contact heuristic, object-presence
tracker, evidence export), translated from the Python sources under
`backend/agent/`, together with theorems settling the specification claims.
-/

/-! ## Rolling evidence buffers

`VideoProcessor.read_frame` (video_processing.py, lines 51-54) appends the
new frame and pops the front element when the length exceeds
`max_buffer_size`.  The audio callback (audio_processing.py, lines 59-64)
extends the buffer by a chunk of samples and, when the length exceeds
`max_buffer_size`, reassigns the buffer to the Python slice
`buffer[-max_buffer_size:]`.  Note the Python slice `l[-0:]` is the whole
list, which the audio embedding reproduces. -/

/-- One `read_frame` push into the video frame buffer:
`append` then `pop(0)` whenever the length exceeds the capacity. -/
def videoPush (cap : Nat) (buf : List α) (x : α) : List α :=
  let b := buf ++ [x]
  if b.length > cap then b.drop 1 else b

/-- A sequence of `read_frame` pushes. -/
def videoPushAll (cap : Nat) (buf : List α) (xs : List α) : List α :=
  xs.foldl (videoPush cap) buf

/-- Python slice `l[-k:]`: the last `k` elements, except that `l[-0:]` is
the whole list. -/
def pySliceLast (k : Nat) (l : List α) : List α :=
  if k = 0 then l else l.drop (l.length - k)

/-- One audio-callback push of a chunk of samples: `extend` then, when the
length exceeds the capacity, reassignment to `buffer[-max_buffer_size:]`. -/
def audioPush (cap : Nat) (buf : List α) (chunk : List α) : List α :=
  let b := buf ++ chunk
  if b.length > cap then pySliceLast cap b else b

/-- A sequence of audio-callback pushes. -/
def audioPushAll (cap : Nat) (buf : List α) (chunks : List (List α)) : List α :=
  chunks.foldl (audioPush cap) buf

theorem videoPush_eq_drop (cap : Nat) (buf : List α) (x : α)
    (h : buf.length ≤ cap) :
    videoPush cap buf x = (buf ++ [x]).drop ((buf ++ [x]).length - cap) := by
  unfold videoPush
  by_cases hgt : (buf ++ [x]).length > cap
  · have h1 : (buf ++ [x]).length - cap = 1 := by
      simp only [List.length_append, List.length_singleton] at hgt ⊢
      omega
    simp only [hgt, if_pos, h1]
  · have h0 : (buf ++ [x]).length - cap = 0 := by
      simp only [List.length_append, List.length_singleton] at hgt ⊢
      omega
    simp only [hgt, if_neg, not_false_iff, h0, List.drop_zero]

theorem videoPush_length_le (cap : Nat) (buf : List α) (x : α)
    (h : buf.length ≤ cap) : (videoPush cap buf x).length ≤ cap := by
  rw [videoPush_eq_drop cap buf x h]
  simp only [List.length_drop, List.length_append, List.length_singleton]
  omega

theorem drop_append_drop (k m : Nat) (A B : List α) (hk : k ≤ A.length) :
    (A.drop k ++ B).drop m = (A ++ B).drop (k + m) := by
  rw [← List.drop_drop]
  congr 1
  rw [List.drop_append_of_le_length hk]

theorem videoPushAll_eq_drop (cap : Nat) (xs : List α) :
    ∀ buf : List α, buf.length ≤ cap →
      videoPushAll cap buf xs = (buf ++ xs).drop ((buf ++ xs).length - cap) := by
  induction xs with
  | nil =>
    intro buf h
    simp only [videoPushAll, List.foldl_nil, List.append_nil]
    have : buf.length - cap = 0 := by omega
    rw [this, List.drop_zero]
  | cons x xs ih =>
    intro buf h
    simp only [videoPushAll, List.foldl_cons] at *
    rw [ih (videoPush cap buf x) (videoPush_length_le cap buf x h)]
    rw [videoPush_eq_drop cap buf x h]
    set A := buf ++ [x] with hA
    have hk : A.length - cap ≤ A.length := Nat.sub_le _ _
    rw [drop_append_drop _ _ _ _ hk]
    have hcons : buf ++ x :: xs = A ++ xs := by simp [hA]
    rw [hcons]
    congr 1
    simp only [List.length_append, List.length_drop]
    omega

theorem audioPush_eq_drop (cap : Nat) (hcap : 1 ≤ cap) (buf chunk : List α) :
    audioPush cap buf chunk
      = (buf ++ chunk).drop ((buf ++ chunk).length - cap) := by
  unfold audioPush pySliceLast
  have hne : cap ≠ 0 := by omega
  by_cases hgt : (buf ++ chunk).length > cap
  · simp only [hgt, if_pos, hne, if_neg, not_false_iff]
  · have h0 : (buf ++ chunk).length - cap = 0 := by omega
    simp only [hgt, if_neg, not_false_iff, h0, List.drop_zero]

theorem audioPush_length_le (cap : Nat) (hcap : 1 ≤ cap) (buf chunk : List α) :
    (audioPush cap buf chunk).length ≤ cap := by
  rw [audioPush_eq_drop cap hcap buf chunk]
  simp only [List.length_drop]
  omega

theorem audioPushAll_eq_drop (cap : Nat) (hcap : 1 ≤ cap) (chunks : List (List α)) :
    ∀ buf : List α, buf.length ≤ cap →
      audioPushAll cap buf chunks
        = (buf ++ chunks.flatten).drop ((buf ++ chunks.flatten).length - cap) := by
  induction chunks with
  | nil =>
    intro buf h
    have h0 : buf.length - cap = 0 := by omega
    simp [audioPushAll, h0]
  | cons c cs ih =>
    intro buf h
    simp only [audioPushAll, List.foldl_cons] at *
    rw [ih (audioPush cap buf c) (audioPush_length_le cap hcap buf c),
      audioPush_eq_drop cap hcap buf c]
    set A := buf ++ c with hA
    have hk : A.length - cap ≤ A.length := Nat.sub_le _ _
    rw [drop_append_drop _ _ _ _ hk]
    have hcons : buf ++ (c :: cs).flatten = A ++ cs.flatten := by
      simp [hA, List.flatten_cons]
    rw [hcons]
    congr 1
    simp only [List.length_append, List.length_drop]
    omega

/-- C2, failure of the claim as stated at capacity 0: the audio callback's
Python reassignment `buffer[-max_buffer_size:]` with `max_buffer_size = 0`
slices `buffer[-0:] = buffer[0:]`, the whole list, so after one push of one
sample into a capacity-0 audio buffer the buffer holds that sample and its
length exceeds the capacity. -/
theorem claim_C2_counterexample :
    audioPushAll 0 ([] : List Nat) [[7]] = [7]
    ∧ (audioPushAll 0 ([] : List Nat) [[7]]).length = 1 := by
  constructor
  · rfl
  · rfl

/-- C2 (amended): for the video frame buffer the claimed property holds for
every capacity C; for the audio buffer it holds for every capacity C ≥ 1
(capacity 0 is the Python `[-0:]` exception): a push sequence of length
N > C leaves exactly the last C samples in original order, and after every
push the length is at most C. -/
theorem claim_C2_amended {α : Type} :
    (∀ (C : Nat) (xs : List α), C < xs.length →
      videoPushAll C [] xs = xs.drop (xs.length - C)
      ∧ (videoPushAll C [] xs).length = C
      ∧ ∀ ys : List α, (videoPushAll C [] ys).length ≤ C)
    ∧ (∀ (C : Nat), 1 ≤ C → ∀ chunks : List (List α),
        C < chunks.flatten.length →
      audioPushAll C [] chunks
          = chunks.flatten.drop (chunks.flatten.length - C)
      ∧ (audioPushAll C [] chunks).length = C
      ∧ ∀ cs : List (List α), (audioPushAll C [] cs).length ≤ C) := by
  constructor
  · intro C xs hlen
    have hform := videoPushAll_eq_drop C xs ([] : List α) (by simp)
    simp only [List.nil_append] at hform
    refine ⟨hform, ?_, ?_⟩
    · rw [hform]; simp only [List.length_drop]; omega
    · intro ys
      have h := videoPushAll_eq_drop C ys ([] : List α) (by simp)
      simp only [List.nil_append] at h
      rw [h]; simp only [List.length_drop]; omega
  · intro C hC chunks hlen
    have hform := audioPushAll_eq_drop C hC chunks ([] : List α) (by simp)
    simp only [List.nil_append] at hform
    refine ⟨hform, ?_, ?_⟩
    · rw [hform]; simp only [List.length_drop]; omega
    · intro cs
      have h := audioPushAll_eq_drop C hC cs ([] : List α) (by simp)
      simp only [List.nil_append] at h
      rw [h]; simp only [List.length_drop]; omega

/-- C2 witness: the amended theorem applied at capacity 2 with three pushed
samples, for both buffer embeddings. -/
theorem claim_C2_amended_witness :
    videoPushAll 2 ([] : List Nat) [1, 2, 3] = [1, 2, 3].drop (3 - 2)
    ∧ audioPushAll 2 ([] : List Nat) [[1], [2], [3]]
        = [[1], [2], [3]].flatten.drop ([[1], [2], [3]].flatten.length - 2) :=
  ⟨((claim_C2_amended.1 2 [1, 2, 3]) (by decide)).1,
   ((claim_C2_amended.2 2 (by decide) [[1], [2], [3]]) (by decide)).1⟩

/-! ## Alert store

Translated from `backend/agent/utils/alert_manager.py`.  An alert record is
the dictionary produced by `Alert.to_dict`; the manager state carries the
in-memory list `self.alerts`, the persisted JSON file contents, and the set
of evidence files on disk.  `uuid.uuid4()` and `datetime.now()` are impure,
so the generated id and timestamp are parameters of the constructor. -/

structure AlertRec where
  id : String
  timestamp : String
  alert_type : String
  description : String
  video_path : Option String
  audio_path : Option String
  is_false_positive : Bool
  feedback : String
deriving DecidableEq

/-- `Alert.__init__` (alert_manager.py, lines 17-34): a fresh alert carries
the generated id and creation timestamp, `is_false_positive = False` and
`feedback = ""`. -/
def Alert.mkFresh (idv ts ty desc : String) (vp ap : Option String) : AlertRec :=
  { id := idv, timestamp := ts, alert_type := ty, description := desc,
    video_path := vp, audio_path := ap,
    is_false_positive := false, feedback := "" }

/-- The `AlertManager` object together with its environment: `alerts` is
`self.alerts`, `persisted` the contents of `alerts.json`, `files` the
evidence files present on disk. -/
structure AMState where
  alerts : List AlertRec
  persisted : List AlertRec
  files : List String
deriving DecidableEq

/-- `AlertManager.save_alerts` (lines 70-73): rewrite the whole collection;
`ok = false` models the `json.dump`/`open` call raising an I/O error. -/
def save_alerts (s : AMState) (ok : Bool) : Except Unit AMState :=
  if ok then .ok { s with persisted := s.alerts } else .error ()

/-- `AlertManager.add_alert` (lines 75-83): append the record to
`self.alerts`, then `save_alerts`.  When the save raises, the exception
propagates to the caller while the object keeps the already-appended list. -/
def add_alert (s : AMState) (a : AlertRec) (saveOk : Bool) :
    AMState × Except Unit String :=
  let s1 := { s with alerts := s.alerts ++ [a] }
  match save_alerts s1 saveOk with
  | .ok s2 => (s2, .ok a.id)
  | .error _ => (s1, .error ())

/-- `AlertManager.get_all_alerts` (lines 85-87):
`sorted(self.alerts, key=lambda x: x["timestamp"], reverse=True)`. -/
def get_all_alerts (s : AMState) : List AlertRec :=
  s.alerts.mergeSort (fun a b => b.timestamp ≤ a.timestamp)

/-- `AlertManager.get_alert_by_id` (lines 89-94): first record with the id,
else `None`. -/
def get_alert_by_id (s : AMState) (i : String) : Option AlertRec :=
  s.alerts.find? (fun a => a.id == i)

/-- The mutation `mark_as_false_positive` performs on the found record. -/
def setFP (fb : String) (a : AlertRec) : AlertRec :=
  { a with is_false_positive := true, feedback := fb }

/-- Helper: update the first record with the given id in place (the Python
code mutates the dict object `get_alert_by_id` returned, which aliases the
element inside `self.alerts`). -/
def markFirst (i fb : String) : List AlertRec → Option (List AlertRec)
  | [] => none
  | a :: rest =>
      if a.id == i then some (setFP fb a :: rest)
      else (markFirst i fb rest).map (a :: ·)

/-- `AlertManager.mark_as_false_positive` (lines 96-104): look the id up;
if found, set the flag and feedback on that record, save, return `True`;
otherwise return `False` touching nothing. -/
def mark_as_false_positive (s : AMState) (i fb : String) : AMState × Bool :=
  match markFirst i fb s.alerts with
  | some l => ({ s with alerts := l, persisted := l }, true)
  | none => (s, false)

/-- Helper: remove the first record with the given id, returning it and the
remaining list (the Python loop finds the first index and `pop(i)`s it). -/
def deleteFirst (i : String) : List AlertRec → Option (AlertRec × List AlertRec)
  | [] => none
  | a :: rest =>
      if a.id == i then some (a, rest)
      else (deleteFirst i rest).map (fun p => (p.1, a :: p.2))

/-- `AlertManager.delete_alert` (lines 106-122): find the first record with
the id; best-effort remove its evidence files (`os.remove` inside
`try/except`, so a failure — `fsOk p = false` — is swallowed), pop the
record, save, return `True`; `False` when the id is unknown. -/
def delete_alert (s : AMState) (i : String) (fsOk : String → Bool) :
    AMState × Bool :=
  match deleteFirst i s.alerts with
  | some (a, l) =>
      ({ alerts := l, persisted := l,
         files := s.files.filter (fun p =>
           ¬ ((a.video_path = some p ∨ a.audio_path = some p) ∧ fsOk p)) },
       true)
  | none => (s, false)

theorem find_none_markFirst (i fb : String) :
    ∀ l : List AlertRec, l.find? (fun a => a.id == i) = none →
      markFirst i fb l = none := by
  intro l
  induction l with
  | nil => intro _; rfl
  | cons a rest ih =>
    intro h
    cases hid : a.id == i with
    | true => simp [List.find?_cons, hid] at h
    | false =>
      simp only [List.find?_cons, hid, cond_false] at h
      simp [markFirst, hid, ih h]

theorem find_some_markFirst (i fb : String) :
    ∀ (l : List AlertRec) (a : AlertRec),
      l.find? (fun b => b.id == i) = some a →
      ∃ l', markFirst i fb l = some l'
        ∧ l'.find? (fun b => b.id == i) = some (setFP fb a)
        ∧ l'.map (·.id) = l.map (·.id) := by
  intro l
  induction l with
  | nil => intro a h; simp [List.find?] at h
  | cons b rest ih =>
    intro a h
    cases hid : b.id == i with
    | true =>
      simp only [List.find?_cons, hid, cond_true, Option.some_inj] at h
      subst h
      refine ⟨setFP fb b :: rest, ?_, ?_, ?_⟩
      · simp [markFirst, hid]
      · have hid2 : ((setFP fb b).id == i) = true := hid
        simp [List.find?_cons, hid2]
      · simp [setFP]
    | false =>
      simp only [List.find?_cons, hid, cond_false] at h
      obtain ⟨l', hm, hf, hmap⟩ := ih a h
      refine ⟨b :: l', ?_, ?_, ?_⟩
      · simp [markFirst, hid, hm]
      · simp [List.find?_cons, hid, hf]
      · simp [hmap]

theorem find_none_deleteFirst (i : String) :
    ∀ l : List AlertRec, l.find? (fun a => a.id == i) = none →
      deleteFirst i l = none := by
  intro l
  induction l with
  | nil => intro _; rfl
  | cons a rest ih =>
    intro h
    cases hid : a.id == i with
    | true => simp [List.find?_cons, hid] at h
    | false =>
      simp only [List.find?_cons, hid, cond_false] at h
      simp [deleteFirst, hid, ih h]

theorem find_some_deleteFirst (i : String) :
    ∀ (l : List AlertRec) (a : AlertRec),
      l.find? (fun b => b.id == i) = some a →
      ∃ l₁ l₂, l = l₁ ++ a :: l₂
        ∧ (∀ b ∈ l₁, (b.id == i) = false)
        ∧ deleteFirst i l = some (a, l₁ ++ l₂) := by
  intro l
  induction l with
  | nil => intro a h; simp [List.find?] at h
  | cons b rest ih =>
    intro a h
    cases hid : b.id == i with
    | true =>
      simp only [List.find?_cons, hid, cond_true, Option.some_inj] at h
      subst h
      exact ⟨[], rest, by simp, by simp, by simp [deleteFirst, hid]⟩
    | false =>
      simp only [List.find?_cons, hid, cond_false] at h
      obtain ⟨l₁, l₂, hl, hl₁, hd⟩ := ih a h
      refine ⟨b :: l₁, l₂, by simp [hl], ?_, by simp [deleteFirst, hid, hd]⟩
      intro c hc
      rcases List.mem_cons.mp hc with rfl | hc
      · exact hid
      · exact hl₁ c hc

/-- C4: `mark_as_false_positive` on a present id sets the flag and stores
the feedback on that record, persists, and returns `true`; on an unknown id
it returns `false` and changes nothing; a fresh alert has
`is_false_positive = false` and empty feedback; a second call leaves the
flag set. -/
theorem claim_C4 :
    (∀ idv ts ty desc vp ap,
      (Alert.mkFresh idv ts ty desc vp ap).is_false_positive = false
      ∧ (Alert.mkFresh idv ts ty desc vp ap).feedback = "")
    ∧ (∀ s i fb, get_alert_by_id s i = none →
        mark_as_false_positive s i fb = (s, false))
    ∧ (∀ s i fb a, get_alert_by_id s i = some a →
        (mark_as_false_positive s i fb).2 = true
        ∧ get_alert_by_id (mark_as_false_positive s i fb).1 i
            = some (setFP fb a)
        ∧ (setFP fb a).is_false_positive = true
        ∧ (setFP fb a).feedback = fb
        ∧ (mark_as_false_positive s i fb).1.persisted
            = (mark_as_false_positive s i fb).1.alerts)
    ∧ (∀ s i fb fb2 a, get_alert_by_id s i = some a →
        ∃ b, get_alert_by_id
            (mark_as_false_positive
              (mark_as_false_positive s i fb).1 i fb2).1 i = some b
          ∧ b.is_false_positive = true) := by
  have hpresent : ∀ s i fb a, get_alert_by_id s i = some a →
      (mark_as_false_positive s i fb).2 = true
      ∧ get_alert_by_id (mark_as_false_positive s i fb).1 i
          = some (setFP fb a)
      ∧ (mark_as_false_positive s i fb).1.persisted
          = (mark_as_false_positive s i fb).1.alerts := by
    intro s i fb a h
    obtain ⟨l', hm, hf, _⟩ := find_some_markFirst i fb s.alerts a h
    unfold mark_as_false_positive
    rw [hm]
    exact ⟨rfl, hf, rfl⟩
  refine ⟨?_, ?_, ?_, ?_⟩
  · intro idv ts ty desc vp ap; exact ⟨rfl, rfl⟩
  · intro s i fb h
    have := find_none_markFirst i fb s.alerts h
    simp [mark_as_false_positive, this]
  · intro s i fb a h
    obtain ⟨h1, h2, h3⟩ := hpresent s i fb a h
    exact ⟨h1, h2, rfl, rfl, h3⟩
  · intro s i fb fb2 a h
    obtain ⟨_, h2, _⟩ := hpresent s i fb a h
    obtain ⟨_, h2', _⟩ := hpresent _ i fb2 (setFP fb a) h2
    exact ⟨setFP fb2 (setFP fb a), h2', rfl⟩

/-- C4 witness: a one-alert store; marking the present id succeeds and
marking an unknown id is a no-op. -/
theorem claim_C4_witness :
    (mark_as_false_positive
        ⟨[Alert.mkFresh "a1" "t1" "object_theft" "d" none none],
         [Alert.mkFresh "a1" "t1" "object_theft" "d" none none], []⟩
        "a1" "note").2 = true
    ∧ mark_as_false_positive
        ⟨[Alert.mkFresh "a1" "t1" "object_theft" "d" none none],
         [Alert.mkFresh "a1" "t1" "object_theft" "d" none none], []⟩
        "zz" "note"
      = (⟨[Alert.mkFresh "a1" "t1" "object_theft" "d" none none],
          [Alert.mkFresh "a1" "t1" "object_theft" "d" none none], []⟩,
         false) :=
  ⟨(claim_C4.2.2.1
      ⟨[Alert.mkFresh "a1" "t1" "object_theft" "d" none none],
       [Alert.mkFresh "a1" "t1" "object_theft" "d" none none], []⟩
      "a1" "note" (Alert.mkFresh "a1" "t1" "object_theft" "d" none none)
      (by rfl)).1,
   claim_C4.2.1
      ⟨[Alert.mkFresh "a1" "t1" "object_theft" "d" none none],
       [Alert.mkFresh "a1" "t1" "object_theft" "d" none none], []⟩
      "zz" "note" (by rfl)⟩

/-- C5: `delete_alert` of a present id (under the store's id-uniqueness
invariant) removes the record — a subsequent lookup yields `none` — persists,
and returns `true`, for EVERY outcome `fsOk` of the evidence-file removals
(best-effort: a file-deletion failure still removes the record); deleting an
unknown id returns `false` and changes nothing. -/
theorem claim_C5 :
    (∀ s i fsOk, get_alert_by_id s i = none →
        delete_alert s i fsOk = (s, false))
    ∧ (∀ s i fsOk a, (s.alerts.map (fun r => r.id)).Nodup →
        get_alert_by_id s i = some a →
        (delete_alert s i fsOk).2 = true
        ∧ get_alert_by_id (delete_alert s i fsOk).1 i = none
        ∧ (delete_alert s i fsOk).1.persisted
            = (delete_alert s i fsOk).1.alerts) := by
  constructor
  · intro s i fsOk h
    have := find_none_deleteFirst i s.alerts h
    simp [delete_alert, this]
  · intro s i fsOk a hnd h
    obtain ⟨l₁, l₂, hl, hl₁, hd⟩ := find_some_deleteFirst i s.alerts a h
    have h' : s.alerts.find? (fun b => b.id == i) = some a := h
    have hai := List.find?_some h'
    have hnone : (l₁ ++ l₂).find? (fun b => b.id == i) = none := by
      rw [List.find?_eq_none]
      intro b hb
      rcases List.mem_append.mp hb with hb1 | hb2
      · simp [hl₁ b hb1]
      · -- id-uniqueness: `a.id` occurs once, so no record of `l₂` carries it
        rw [hl] at hnd
        simp only [List.map_append, List.map_cons] at hnd
        have hmid := (List.nodup_append.mp hnd).2.1
        have hnotin := (List.nodup_cons.mp hmid).1
        intro hbi
        have hbid : b.id = i := by simpa using hbi
        have haid : a.id = i := by simpa using hai
        have hmem : a.id ∈ List.map (fun r => r.id) l₂ :=
          haid ▸ hbid ▸ List.mem_map_of_mem _ hb2
        exact hnotin hmem
    unfold delete_alert
    rw [hd]
    exact ⟨rfl, hnone, rfl⟩

/-- C5 witness: a one-alert store; deleting the present id succeeds even
with every file removal failing, and deleting an unknown id is a no-op. -/
theorem claim_C5_witness :
    (delete_alert
        ⟨[Alert.mkFresh "a1" "t1" "object_theft" "d" (some "v.mp4") none],
         [Alert.mkFresh "a1" "t1" "object_theft" "d" (some "v.mp4") none],
         ["v.mp4"]⟩
        "a1" (fun _ => false)).2 = true
    ∧ delete_alert
        ⟨[Alert.mkFresh "a1" "t1" "object_theft" "d" (some "v.mp4") none],
         [Alert.mkFresh "a1" "t1" "object_theft" "d" (some "v.mp4") none],
         ["v.mp4"]⟩
        "zz" (fun _ => false)
      = (⟨[Alert.mkFresh "a1" "t1" "object_theft" "d" (some "v.mp4") none],
          [Alert.mkFresh "a1" "t1" "object_theft" "d" (some "v.mp4") none],
          ["v.mp4"]⟩, false) :=
  ⟨(claim_C5.2
      ⟨[Alert.mkFresh "a1" "t1" "object_theft" "d" (some "v.mp4") none],
       [Alert.mkFresh "a1" "t1" "object_theft" "d" (some "v.mp4") none],
       ["v.mp4"]⟩
      "a1" (fun _ => false)
      (Alert.mkFresh "a1" "t1" "object_theft" "d" (some "v.mp4") none)
      (by simp) (by rfl)).1,
   claim_C5.1
      ⟨[Alert.mkFresh "a1" "t1" "object_theft" "d" (some "v.mp4") none],
       [Alert.mkFresh "a1" "t1" "object_theft" "d" (some "v.mp4") none],
       ["v.mp4"]⟩
      "zz" (fun _ => false) (by rfl)⟩

/-- C6: `get_all_alerts` returns a permutation of the stored alerts (every
alert, nothing else) that is ordered by timestamp descending, whatever the
insertion order of `s.alerts` was. -/
theorem claim_C6 : ∀ s : AMState,
    (get_all_alerts s).Perm s.alerts
    ∧ (get_all_alerts s).Pairwise
        (fun a b => b.timestamp ≤ a.timestamp) := by
  intro s
  constructor
  · exact List.mergeSort_perm s.alerts _
  · have h := @List.sorted_mergeSort AlertRec
      (fun a b : AlertRec => decide (b.timestamp ≤ a.timestamp))
      (fun a b c hab hbc => by
        simp only [decide_eq_true_eq] at *
        exact le_trans hbc hab)
      (fun a b => by
        simp only [Bool.or_eq_true, decide_eq_true_eq]
        exact le_total b.timestamp a.timestamp)
      s.alerts
    refine List.Pairwise.imp ?_ h
    intro a b hab
    simpa using hab

/-- C1: behaviour of `add_alert` under a persistence failure.  The code
appends to `self.alerts` and only then calls `save_alerts`; when the write
raises, the exception propagates (the failed mutation IS surfaced), but the
already-appended record stays in the in-memory list while the persisted
collection is unchanged — the in-memory state diverges from what was
persisted, contradicting the specified error-handling design. -/
theorem claim_C1 : ∀ (s : AMState) (a : AlertRec),
    (add_alert s a false).2 = .error ()
    ∧ (add_alert s a false).1.alerts = s.alerts ++ [a]
    ∧ (add_alert s a false).1.persisted = s.persisted
    ∧ (add_alert s a true).2 = .ok a.id
    ∧ (add_alert s a true).1.alerts = s.alerts ++ [a]
    ∧ (add_alert s a true).1.persisted = s.alerts ++ [a] := by
  intro s a
  refine ⟨rfl, rfl, rfl, rfl, rfl, rfl⟩

/-- C8, failure of the claim as stated: `Alert.__init__` draws
`str(uuid.uuid4())[:8]` with no collision check and `add_alert` appends
unconditionally, so two successful adds whose truncated UUIDs collide leave
two records sharing one id — the store then does NOT contain two distinct
ids after two successful adds. -/
theorem claim_C8_counterexample :
    ((add_alert
        (add_alert ⟨[], [], []⟩
          (Alert.mkFresh "3f2b9c01" "t1" "object_theft" "d1" none none)
          true).1
        (Alert.mkFresh "3f2b9c01" "t2" "inappropriate_contact" "d2" none none)
        true).1.alerts.length = 2)
    ∧ ((add_alert
        (add_alert ⟨[], [], []⟩
          (Alert.mkFresh "3f2b9c01" "t1" "object_theft" "d1" none none)
          true).1
        (Alert.mkFresh "3f2b9c01" "t2" "inappropriate_contact" "d2" none none)
        true).1.alerts.map (fun r => r.id)).dedup.length = 1 := by
  constructor
  · rfl
  · decide

/-- Successive `add_alert` calls with successful persistence. -/
def addMany (s : AMState) (rs : List AlertRec) : AMState :=
  rs.foldl (fun s a => (add_alert s a true).1) s

theorem markFirst_map_id (i fb : String) :
    ∀ (l₀ l : List AlertRec), markFirst i fb l₀ = some l →
      l.map (fun r => r.id) = l₀.map (fun r => r.id) := by
  intro l₀
  induction l₀ with
  | nil => intro l h; simp [markFirst] at h
  | cons b rest ih =>
    intro l h
    by_cases hid : (b.id == i) = true
    · simp only [markFirst, hid, if_pos, Option.some_inj] at h
      subst h
      simp [setFP]
    · cases hm : markFirst i fb rest with
      | none => simp [markFirst, hid, hm] at h
      | some l' =>
        have hval : markFirst i fb (b :: rest) = some (b :: l') := by
          simp [markFirst, hid, hm]
        rw [hval, Option.some_inj] at h
        subst h
        simp [ih l' hm]

theorem deleteFirst_sublist (i : String) :
    ∀ (l₀ : List AlertRec) (a : AlertRec) (l : List AlertRec),
      deleteFirst i l₀ = some (a, l) → l.Sublist l₀ := by
  intro l₀
  induction l₀ with
  | nil => intro a l h; simp [deleteFirst] at h
  | cons b rest ih =>
    intro a l h
    by_cases hid : (b.id == i) = true
    · simp only [deleteFirst, hid, if_pos, Option.some_inj,
        Prod.mk.injEq] at h
      obtain ⟨rfl, rfl⟩ := h
      exact List.sublist_cons_self b rest
    · cases hd : deleteFirst i rest with
      | none => simp [deleteFirst, hid, hd] at h
      | some p =>
        obtain ⟨c, ls⟩ := p
        have hval : deleteFirst i (b :: rest) = some (c, b :: ls) := by
          simp [deleteFirst, hid, hd]
        rw [hval, Option.some_inj, Prod.mk.injEq] at h
        obtain ⟨rfl, rfl⟩ := h
        exact List.Sublist.cons₂ b (ih c ls hd)

theorem addMany_alerts (rs : List AlertRec) :
    ∀ s : AMState, (addMany s rs).alerts = s.alerts ++ rs := by
  induction rs with
  | nil => intro s; simp [addMany]
  | cons a rest ih =>
    intro s
    simp only [addMany, List.foldl_cons] at *
    rw [ih]
    simp [add_alert, save_alerts]

/-- C8 (amended): the store keeps all ids distinct provided the generated
ids happen to be fresh — which the code does not check: `add_alert` of a
record whose id differs from every stored id preserves id-distinctness,
`mark_as_false_positive` and `delete_alert` always preserve it, and N adds
of records with pairwise distinct ids into an empty store leave exactly N
records with distinct ids. -/
theorem claim_C8_amended :
    (∀ s a, ((s.alerts.map (fun r => r.id)).Nodup →
        a.id ∉ s.alerts.map (fun r => r.id) →
        (((add_alert s a true).1.alerts.map (fun r => r.id)).Nodup)))
    ∧ (∀ s i fb, ((s.alerts.map (fun r => r.id)).Nodup →
        (((mark_as_false_positive s i fb).1.alerts.map
            (fun r => r.id)).Nodup)))
    ∧ (∀ s i fsOk, ((s.alerts.map (fun r => r.id)).Nodup →
        (((delete_alert s i fsOk).1.alerts.map (fun r => r.id)).Nodup)))
    ∧ (∀ rs : List AlertRec, (rs.map (fun r => r.id)).Nodup →
        (addMany ⟨[], [], []⟩ rs).alerts.length = rs.length
        ∧ ((addMany ⟨[], [], []⟩ rs).alerts.map (fun r => r.id)).Nodup) := by
  refine ⟨?_, ?_, ?_, ?_⟩
  · intro s a hnd hfresh
    have halerts : (add_alert s a true).1.alerts = s.alerts ++ [a] := rfl
    rw [halerts]
    simp only [List.map_append, List.map_cons, List.map_nil]
    rw [List.nodup_append]
    refine ⟨hnd, List.nodup_singleton _, ?_⟩
    intro x hx hx2
    rw [List.mem_singleton] at hx2
    subst hx2
    exact hfresh hx
  · intro s i fb hnd
    unfold mark_as_false_positive
    cases hm : markFirst i fb s.alerts with
    | none => exact hnd
    | some l =>
      rw [markFirst_map_id i fb s.alerts l hm]
      exact hnd
  · intro s i fsOk hnd
    unfold delete_alert
    cases hd : deleteFirst i s.alerts with
    | none => exact hnd
    | some p =>
      obtain ⟨a, l⟩ := p
      exact ((deleteFirst_sublist i s.alerts a l hd).map
        (fun r => r.id)).nodup hnd
  · intro rs hnd
    rw [addMany_alerts]
    constructor
    · simp
    · simpa using hnd

/-- C8 witness: two adds with distinct generated ids leave a two-record
store with distinct ids. -/
theorem claim_C8_amended_witness :
    (addMany ⟨[], [], []⟩
        [Alert.mkFresh "3f2b9c01" "t1" "object_theft" "d1" none none,
         Alert.mkFresh "77a0d4e2" "t2" "offensive_language" "d2" none none]
      ).alerts.length = 2
    ∧ ((addMany ⟨[], [], []⟩
        [Alert.mkFresh "3f2b9c01" "t1" "object_theft" "d1" none none,
         Alert.mkFresh "77a0d4e2" "t2" "offensive_language" "d2" none none]
      ).alerts.map (fun r => r.id)).Nodup :=
  claim_C8_amended.2.2.2
    [Alert.mkFresh "3f2b9c01" "t1" "object_theft" "d1" none none,
     Alert.mkFresh "77a0d4e2" "t2" "offensive_language" "d2" none none]
    (by simp [Alert.mkFresh])

/-! ## Contact-detection heuristic

Translated from `backend/agent/models/yolov7_pose/model.py`.  A person is a
COCO keypoint array: index `i` yields `(x, y, confidence)`.  The source
compares `math.sqrt`-distances against pixel thresholds and dot products of
vectors normalized by `math.sqrt`-norms; both are order-equivalent to the
rational comparisons used here (squared distance against squared threshold,
unnormalized dot-product sign when both squared norms are positive), so the
embedding stays in ℚ. -/

structure Kpt where
  x : ℚ
  y : ℚ
  c : ℚ
deriving DecidableEq

/-- A detected pose: keypoint index to (x, y, confidence). -/
def Person : Type := Nat → Kpt

/-- Squared Euclidean distance between two keypoints (the source computes
`math.sqrt` of this and compares with a threshold; we compare the square
with the squared threshold). -/
def dist2 (a b : Kpt) : ℚ := (a.x - b.x) * (a.x - b.x) + (a.y - b.y) * (a.y - b.y)

/-- `key_points = [5, 6, 11, 12]`: shoulder and hip indices. -/
def keyBodyPts : List Nat := [5, 6, 11, 12]

/-- `hand_indices = [9, 10]`: wrists. -/
def handPts : List Nat := [9, 10]

/-- The shoulder/hip keypoints of a person with confidence ≥ 0.5 (the
source skips keypoints whose confidence is `< 0.5`). -/
def confKeyKpts (p : Person) : List Kpt :=
  (keyBodyPts.map p).filter (fun k => !(decide (k.c < 1/2)))

/-- `_calculate_minimum_distance` (lines 109-130), squared: minimum of the
squared distances over the confident shoulder/hip keypoint pairs; `none`
plays `float('inf')` (no confident pair). -/
def minKeyDist2 (p q : Person) : Option ℚ :=
  ((confKeyKpts p).flatMap (fun a => (confKeyKpts q).map (fun b => dist2 a b))).min?

/-- The `distance < 30` test of `check_inappropriate_contact` (line 96),
squared: `min_distance < 30` is false when the minimum stayed infinite. -/
def closeKeyPair (p q : Person) : Bool :=
  match minKeyDist2 p q with
  | some d => decide (d < 900)
  | none => false

/-- `_are_facing_each_other` (lines 132-160): trunk direction vectors from
hip midpoint to shoulder midpoint (no confidence filtering in the source);
when both norms are positive, the dot product of the normalized vectors is
negative iff the unnormalized dot product is; zero norms give `False`. -/
def facingEachOther (p q : Person) : Bool :=
  let d1x := ((p 5).x + (p 6).x) / 2 - ((p 11).x + (p 12).x) / 2
  let d1y := ((p 5).y + (p 6).y) / 2 - ((p 11).y + (p 12).y) / 2
  let d2x := ((q 5).x + (q 6).x) / 2 - ((q 11).x + (q 12).x) / 2
  let d2y := ((q 5).y + (q 6).y) / 2 - ((q 11).y + (q 12).y) / 2
  if 0 < d1x * d1x + d1y * d1y ∧ 0 < d2x * d2x + d2y * d2y then
    decide (d1x * d2x + d1y * d2y < 0)
  else false

/-- One direction of `_detect_hand_contact` (lines 168-181): a confident
wrist of `p` within 20 pixels (squared: 400) of a confident shoulder/hip of
`q`. -/
def handTouch (p q : Person) : Bool :=
  handPts.any (fun hi =>
    if (p hi).c < 1/2 then false
    else keyBodyPts.any (fun bi =>
      if (q bi).c < 1/2 then false
      else decide (dist2 (p hi) (q bi) < 400)))

/-- `_detect_hand_contact` (lines 162-198): both directions. -/
def detect_hand_contact (p q : Person) : Bool :=
  handTouch p q || handTouch q p

/-- The three-stage test `check_inappropriate_contact` applies to one pair
(lines 93-105). -/
def checkPair (p q : Person) : Bool :=
  closeKeyPair p q && facingEachOther p q && detect_hand_contact p q

/-- The `for i ... for j in range(i+1, ...)` search over unordered pairs. -/
def contactSearch : List Person → Bool
  | [] => false
  | p :: rest => rest.any (fun q => checkPair p q) || contactSearch rest

/-- `check_inappropriate_contact` (lines 73-107). -/
def check_inappropriate_contact (poses : List Person) : Bool × String :=
  if poses.length < 2 then (false, "")
  else if contactSearch poses then
    (true, "Detected inappropriate physical contact between people")
  else (false, "")

theorem pair_sublist_cons {α : Type} (p q h : α) (t : List α) :
    [p, q].Sublist (h :: t) ↔ (p = h ∧ q ∈ t) ∨ [p, q].Sublist t := by
  constructor
  · intro hs
    cases hs with
    | cons a hs2 => exact Or.inr hs2
    | cons₂ a hs2 => exact Or.inl ⟨rfl, List.singleton_sublist.mp hs2⟩
  · rintro (⟨rfl, hq⟩ | hs)
    · exact List.Sublist.cons₂ _ (List.singleton_sublist.mpr hq)
    · exact List.Sublist.cons _ hs

theorem contactSearch_iff : ∀ poses : List Person,
    contactSearch poses = true ↔
      ∃ p q, [p, q].Sublist poses ∧ checkPair p q = true := by
  intro poses
  induction poses with
  | nil =>
    simp only [contactSearch, Bool.false_eq_true, false_iff]
    rintro ⟨p, q, hs, _⟩
    exact absurd (List.Sublist.length_le hs) (by simp)
  | cons h t ih =>
    simp only [contactSearch, Bool.or_eq_true, List.any_eq_true, ih]
    constructor
    · rintro (⟨q, hq, hc⟩ | ⟨p, q, hs, hc⟩)
      · exact ⟨h, q, (pair_sublist_cons h q h t).mpr (Or.inl ⟨rfl, hq⟩), hc⟩
      · exact ⟨p, q, (pair_sublist_cons p q h t).mpr (Or.inr hs), hc⟩
    · rintro ⟨p, q, hs, hc⟩
      rcases (pair_sublist_cons p q h t).mp hs with ⟨rfl, hq⟩ | hs2
      · exact Or.inl ⟨q, hq, hc⟩
      · exact Or.inr ⟨p, q, hs2, hc⟩

theorem contactSearch_short (poses : List Person) (h : poses.length < 2) :
    contactSearch poses = false := by
  match poses with
  | [] => rfl
  | [p] => rfl
  | p :: q :: rest => exact absurd h (by simp)

/-- Synthetic person of §8: shoulders at (0,0)/(10,0), hips at
(0,20)/(10,20) (trunk pointing toward negative y), right wrist at (10,2),
confidence 1 on those keypoints and 0 elsewhere. -/
def personA : Person := fun i =>
  if i = 5 then ⟨0, 0, 1⟩
  else if i = 6 then ⟨10, 0, 1⟩
  else if i = 11 then ⟨0, 20, 1⟩
  else if i = 12 then ⟨10, 20, 1⟩
  else if i = 9 then ⟨10, 2, 1⟩
  else ⟨0, 0, 0⟩

/-- `personA` with the wrist moved to (10,50): 50 pixels from the partner's
nearest shoulder, everything else unchanged. -/
def personA50 : Person := fun i =>
  if i = 5 then ⟨0, 0, 1⟩
  else if i = 6 then ⟨10, 0, 1⟩
  else if i = 11 then ⟨0, 20, 1⟩
  else if i = 12 then ⟨10, 20, 1⟩
  else if i = 9 then ⟨10, 50, 1⟩
  else ⟨0, 0, 0⟩

/-- Second synthetic person: shoulders at (10,0)/(20,0) (shoulder midpoint
10 pixels from personA's), hips at (10,-20)/(20,-20) (trunk oriented
opposite to personA's), wrists at confidence 0. -/
def personB : Person := fun i =>
  if i = 5 then ⟨10, 0, 1⟩
  else if i = 6 then ⟨20, 0, 1⟩
  else if i = 11 then ⟨10, -20, 1⟩
  else if i = 12 then ⟨20, -20, 1⟩
  else ⟨0, 0, 0⟩

/-- C7: the contact heuristic reports `(true, non-empty description)`
exactly when some unordered pair of persons passes all three tests —
confident shoulder/hip minimum distance below 30px, negatively-dotted trunk
orientations, and a confident wrist of one within 20px of a confident
shoulder/hip of the other — and `(false, "")` otherwise; the synthetic
two-person scene of §8 is detected, and moving the wrist to 50px away
flips the result to `(false, "")`. -/
theorem claim_C7 :
    (∀ poses : List Person,
      ((check_inappropriate_contact poses).1 = true ↔
        ∃ p q, [p, q].Sublist poses ∧ checkPair p q = true)
      ∧ ((check_inappropriate_contact poses).1 = true →
          (check_inappropriate_contact poses).2
            = "Detected inappropriate physical contact between people")
      ∧ ((check_inappropriate_contact poses).1 = false →
          (check_inappropriate_contact poses).2 = ""))
    ∧ check_inappropriate_contact [personA, personB]
        = (true, "Detected inappropriate physical contact between people")
    ∧ check_inappropriate_contact [personA50, personB] = (false, "") := by
  refine ⟨?_, ?_, ?_⟩
  · intro poses
    by_cases hlen : poses.length < 2
    · have hshort := contactSearch_short poses hlen
      have hval : check_inappropriate_contact poses = (false, "") := by
        unfold check_inappropriate_contact
        rw [if_pos hlen]
      rw [hval]
      refine ⟨?_, ?_, ?_⟩
      · simp only [Bool.false_eq_true, false_iff]
        rintro ⟨p, q, hs, hc⟩
        rw [(contactSearch_iff poses).mpr ⟨p, q, hs, hc⟩] at hshort
        exact Bool.true_eq_false ▸ hshort.symm ▸ rfl
      · intro h; exact absurd h (by simp)
      · intro _; rfl
    · cases hcs : contactSearch poses with
      | true =>
        have hval : check_inappropriate_contact poses
            = (true, "Detected inappropriate physical contact between people") := by
          unfold check_inappropriate_contact
          rw [if_neg hlen, if_pos hcs]
        rw [hval]
        refine ⟨?_, ?_, ?_⟩
        · simp only [true_iff]
          exact (contactSearch_iff poses).mp hcs
        · intro _; rfl
        · intro h; exact absurd h (by simp)
      | false =>
        have hval : check_inappropriate_contact poses = (false, "") := by
          unfold check_inappropriate_contact
          rw [if_neg hlen, if_neg (by rw [hcs]; exact Bool.false_ne_true)]
        rw [hval]
        refine ⟨?_, ?_, ?_⟩
        · simp only [Bool.false_eq_true, false_iff]
          rintro ⟨p, q, hs, hc⟩
          rw [(contactSearch_iff poses).mpr ⟨p, q, hs, hc⟩] at hcs
          exact Bool.true_eq_false ▸ hcs.symm ▸ rfl
        · intro h; exact absurd h (by simp)
        · intro _; rfl
  · norm_num [check_inappropriate_contact, contactSearch, checkPair,
      closeKeyPair, minKeyDist2, confKeyKpts, keyBodyPts, handPts,
      facingEachOther, detect_hand_contact, handTouch, dist2,
      personA, personB, List.min?, List.flatMap]
  · norm_num [check_inappropriate_contact, contactSearch, checkPair,
      closeKeyPair, minKeyDist2, confKeyKpts, keyBodyPts, handPts,
      facingEachOther, detect_hand_contact, handTouch, dist2,
      personA50, personB, List.min?, List.flatMap]

/-- C7 witness: the iff/implication part of the claim applied to the
concrete two-person scene. -/
theorem claim_C7_witness :
    (check_inappropriate_contact [personA, personB]).2
      = "Detected inappropriate physical contact between people" :=
  (claim_C7.1 [personA, personB]).2.1 (congrArg Prod.fst claim_C7.2.1)

/-! ## Object-presence tracker (theft detection)

Translated from `backend/agent/models/yolov8/model.py`,
`update_object_tracking` (lines 53-116).  A detection is one row of
`results.boxes.data` whose class is looked up in `results.names`; the
tracked map is the Python dict `self.tracked_objects` (insertion-ordered,
unique keys).  `time.time()` is impure, so the tick time `now` is a
parameter; within one tick the code calls it once per detection and once
per missing check, all modelled as the same `now`. -/

structure Detection where
  x1 : ℚ
  y1 : ℚ
  x2 : ℚ
  y2 : ℚ
  conf : ℚ
  cls : String
deriving DecidableEq

structure TrackInfo where
  cls : String
  posx : ℚ
  posy : ℚ
  size : ℚ
  lastSeen : ℚ
  bx1 : ℚ
  by1 : ℚ
  bx2 : ℚ
  by2 : ℚ
deriving DecidableEq

/-- The Python dict `self.tracked_objects` as an insertion-ordered
association list with unique keys. -/
abbrev TrackMap : Type := List (String × TrackInfo)

def watched_classes : List String :=
  ["chair", "laptop", "cell phone", "keyboard", "mouse", "cup", "bottle"]

/-- Python `int(q)`: truncation toward zero. -/
def pyInt (q : ℚ) : Int := q.num.tdiv q.den

/-- The derived object id (line 81):
`f"{class_name}_{int(cx/20)}_{int(cy/20)}_{int(area/500)}"`. -/
def derivedId (d : Detection) : String :=
  d.cls ++ "_" ++ toString (pyInt ((d.x1 + d.x2) / 2 / 20))
        ++ "_" ++ toString (pyInt ((d.y1 + d.y2) / 2 / 20))
        ++ "_" ++ toString (pyInt ((d.x2 - d.x1) * (d.y2 - d.y1) / 500))

/-- The per-detection record stored in `current_objects` (lines 83-89). -/
def mkInfo (d : Detection) (now : ℚ) : TrackInfo :=
  { cls := d.cls, posx := (d.x1 + d.x2) / 2, posy := (d.y1 + d.y2) / 2,
    size := (d.x2 - d.x1) * (d.y2 - d.y1), lastSeen := now,
    bx1 := d.x1, by1 := d.y1, bx2 := d.x2, by2 := d.y2 }

/-- Python dict assignment `current_objects[obj_id] = {...}`: replace in
place when the key exists, else append. -/
def dictInsert (l : TrackMap) (k : String) (v : TrackInfo) : TrackMap :=
  if l.any (fun kv => kv.1 == k) then
    l.map (fun kv => if kv.1 == k then (k, v) else kv)
  else l ++ [(k, v)]

/-- Building `current_objects` (lines 67-89): detections filtered to the
watched classes, keyed by the derived id, `last_seen = now`. -/
def buildCurrent (dets : List Detection) (now : ℚ) : TrackMap :=
  dets.foldl (fun acc d =>
    if d.cls ∈ watched_classes then dictInsert acc (derivedId d) (mkInfo d now)
    else acc) []

/-- Python dict membership / lookup on the tracked map. -/
def lookupTrack (l : TrackMap) (k : String) : Option TrackInfo :=
  (l.find? (fun kv => kv.1 == k)).map (fun kv => kv.2)

structure TickResult where
  tracked : TrackMap
  missing : List TrackInfo
  fired : Bool
  desc : String

/-- `update_object_tracking` (lines 53-116).  If the tracked dict is empty
(`if not self.tracked_objects`), seed it with the current detections and
return `(False, "")`.  Otherwise collect every tracked entry absent from
`current_objects` whose `now - last_seen` exceeds 3 seconds, replace the
tracked dict with `current_objects`, and report.  (Python iterates the
missing class names through `set()`, whose order is unspecified; the
description here joins the first-occurrence deduplication — the claims only
use the flag and the exact `(False, "")` no-alert result.) -/
def update_object_tracking (tracked : TrackMap) (dets : List Detection)
    (now : ℚ) : TickResult :=
  let current := buildCurrent dets now
  if tracked.isEmpty then
    { tracked := current, missing := [], fired := false, desc := "" }
  else
    let missing := (tracked.filter (fun kv =>
      (lookupTrack current kv.1).isNone
        && decide (now - kv.2.lastSeen > 3))).map (fun kv => kv.2)
    if missing.isEmpty then
      { tracked := current, missing := missing, fired := false, desc := "" }
    else
      { tracked := current, missing := missing, fired := true,
        desc := "Potential theft detected: "
          ++ ", ".intercalate (missing.map (fun o => o.cls)).dedup
          ++ " missing" }

/-- A sequence of tracker ticks, each with its detections and its time,
reporting each tick's `(fired, description)` output. -/
def runTicks : TrackMap → List (List Detection × ℚ) → List (Bool × String)
  | _, [] => []
  | tracked, (dets, now) :: rest =>
      let r := update_object_tracking tracked dets now
      (r.fired, r.desc) :: runTicks r.tracked rest

/-- A watched-class ("cup") detection with box (0,0)-(40,40). -/
def theftDet : Detection := ⟨0, 0, 40, 40, 1, "cup"⟩

/-- §8 scenario: the object is seen at times 0, 1, 2 (last-seen timestamps
1 second apart) and absent from every tick from time 3 on. -/
def theftTicks : List (List Detection × ℚ) :=
  [([theftDet], 0), ([theftDet], 1), ([theftDet], 2),
   ([], 3), ([], 4), ([], 5), ([], 6)]

/-- C3, failure of the claim as stated: in the §8 scenario (ticks 1 second
apart, object last seen at time 2, absent from time 3 on) the elapsed time
since last-seen first exceeds the 3-second grace period at the tick at
time 6, so the claim requires the seventh output to be a detection; but
the code replaces the tracked dict with the current detections at the end
of every tick, so the object is dropped at the first absent tick (elapsed
1 s ≤ 3 s there) and NO tick ever fires — every output is `(false, "")`. -/
theorem claim_C3_counterexample :
    runTicks [] theftTicks
      = [(false, ""), (false, ""), (false, ""), (false, ""),
         (false, ""), (false, ""), (false, "")] := by
  have hd : (decide ((3:ℚ) < 3 - 2)) = false := by norm_num
  simp [runTicks, theftTicks, update_object_tracking, buildCurrent,
    dictInsert, lookupTrack, mkInfo, theftDet, hd, watched_classes]

/-- C3 (amended): an absent object can be classified missing only at the
first tick at which it is absent — it fires there exactly when
`now - last_seen > 3` — because the tracked map is then replaced by the
current detections, dropping the object; consequently, with last-seen
timestamps 1 second apart the classification never fires (previous
theorem). -/
theorem claim_C3_amended :
    ∀ (tracked : TrackMap) (dets : List Detection) (now : ℚ),
      tracked ≠ [] →
      ((update_object_tracking tracked dets now).fired = true ↔
        ∃ kv ∈ tracked,
          lookupTrack (buildCurrent dets now) kv.1 = none
          ∧ now - kv.2.lastSeen > 3)
      ∧ (update_object_tracking tracked dets now).tracked
          = buildCurrent dets now := by
  intro tracked dets now hne
  have hemp : tracked.isEmpty = false := by
    cases tracked with
    | nil => exact absurd rfl hne
    | cons a t => rfl
  unfold update_object_tracking
  rw [hemp]
  simp only [Bool.false_eq_true, if_false]
  constructor
  · by_cases hm : ((tracked.filter (fun kv =>
        (lookupTrack (buildCurrent dets now) kv.1).isNone
          && decide (now - kv.2.lastSeen > 3))).map (fun kv => kv.2)).isEmpty
    · rw [if_pos hm]
      simp only [Bool.false_eq_true, false_iff]
      rintro ⟨kv, hkv, hnone, hgt⟩
      rw [List.isEmpty_eq_true, List.map_eq_nil_iff, List.filter_eq_nil_iff] at hm
      exact hm kv hkv (by simp [hnone, hgt])
    · rw [if_neg hm]
      simp only [true_iff]
      rw [List.isEmpty_eq_true, List.map_eq_nil_iff, List.filter_eq_nil_iff] at hm
      push_neg at hm
      obtain ⟨kv, hkv, hp⟩ := hm
      simp only [Bool.and_eq_true, Option.isNone_iff_eq_none,
        decide_eq_true_eq] at hp
      exact ⟨kv, hkv, hp.1, hp.2⟩
  · by_cases hm : ((tracked.filter (fun kv =>
        (lookupTrack (buildCurrent dets now) kv.1).isNone
          && decide (now - kv.2.lastSeen > 3))).map (fun kv => kv.2)).isEmpty
    · rw [if_pos hm]
    · rw [if_neg hm]

/-- C3 witness: one tracked entry last seen at time 2, no detections, time
6 — the first absent tick fires since 6 − 2 > 3. -/
theorem claim_C3_amended_witness :
    (update_object_tracking
        [("cup_1_1_3", ⟨"cup", 20, 20, 1600, 2, 0, 0, 40, 40⟩)] [] 6).fired
      = true
    ∧ (update_object_tracking
        [("cup_1_1_3", ⟨"cup", 20, 20, 1600, 2, 0, 0, 40, 40⟩)] [] 6).tracked
      = buildCurrent [] 6 :=
  ⟨(claim_C3_amended
      [("cup_1_1_3", ⟨"cup", 20, 20, 1600, 2, 0, 0, 40, 40⟩)] [] 6
      (by simp)).1.mpr
    ⟨("cup_1_1_3", ⟨"cup", 20, 20, 1600, 2, 0, 0, 40, 40⟩), by simp,
     by simp [lookupTrack, buildCurrent], by norm_num⟩,
   (claim_C3_amended
      [("cup_1_1_3", ⟨"cup", 20, 20, 1600, 2, 0, 0, 40, 40⟩)] [] 6
      (by simp)).2⟩

/-- C10: a tick that detects zero watched-class objects leaves the tracked
map empty, and a tick entered with an empty tracked map is a seeding tick:
it installs the current detections as the tracked map and returns
`(false, "")` regardless of what it detects — so no theft alert can fire
on the first tick after the tracked set empties. -/
theorem claim_C10 :
    (∀ (tracked : TrackMap) (dets : List Detection) (now : ℚ),
      (∀ d ∈ dets, d.cls ∉ watched_classes) →
      (update_object_tracking tracked dets now).tracked = [])
    ∧ (∀ (dets : List Detection) (now : ℚ),
      (update_object_tracking [] dets now).fired = false
      ∧ (update_object_tracking [] dets now).desc = ""
      ∧ (update_object_tracking [] dets now).tracked
          = buildCurrent dets now) := by
  constructor
  · intro tracked dets now h
    have key : ∀ (ds : List Detection) (acc : TrackMap),
        (∀ d ∈ ds, d.cls ∉ watched_classes) →
        ds.foldl (fun acc d =>
          if d.cls ∈ watched_classes then
            dictInsert acc (derivedId d) (mkInfo d now)
          else acc) acc = acc := by
      intro ds
      induction ds with
      | nil => intro acc _; rfl
      | cons d rest ih =>
        intro acc hall
        simp only [List.foldl_cons]
        rw [if_neg (hall d (List.mem_cons_self d rest))]
        exact ih acc (fun e he => hall e (List.mem_cons_of_mem d he))
    have hb : buildCurrent dets now = [] := by
      unfold buildCurrent
      exact key dets [] h
    unfold update_object_tracking
    rw [hb]
    by_cases hemp : tracked.isEmpty
    · rw [if_pos hemp]
    · rw [if_neg hemp]
      by_cases hm : ((tracked.filter (fun kv =>
          (lookupTrack ([] : TrackMap) kv.1).isNone
            && decide (now - kv.2.lastSeen > 3))).map (fun kv => kv.2)).isEmpty
      · rw [if_pos hm]
      · rw [if_neg hm]
  · intro dets now
    exact ⟨rfl, rfl, rfl⟩

/-- C10 witness: a tracked cup, one unwatched ("person") detection — the
tracked map empties — followed by a seeding tick. -/
theorem claim_C10_witness :
    (update_object_tracking
        [("cup_1_1_3", ⟨"cup", 20, 20, 1600, 2, 0, 0, 40, 40⟩)]
        [⟨0, 0, 40, 40, 1, "person"⟩] 3).tracked = []
    ∧ (update_object_tracking [] [theftDet] 4).fired = false :=
  ⟨claim_C10.1 [("cup_1_1_3", ⟨"cup", 20, 20, 1600, 2, 0, 0, 40, 40⟩)]
      [⟨0, 0, 40, 40, 1, "person"⟩] 3 (by decide),
   (claim_C10.2 [theftDet] 4).1⟩

/-! ## Evidence export

`VideoProcessor.save_alert_video` (video_processing.py, lines 58-77) and
`AudioProcessor.save_alert_audio` (audio_processing.py, lines 144-162).
Both return the state of the buffer alongside the optional artifact path:
neither function writes to the buffer, which the state-passing makes
explicit.  The directory prefix, the numeric frame/sample payloads and the
actual media encoding are opaque to the control flow modelled here. -/

/-- `save_alert_video`: `None` when the frame buffer is empty, otherwise
the deterministic clip path `alert_{alert_id}_{timestamp}.mp4` under
`VIDEO_DIR`; the buffer is only read. -/
def save_alert_video {α : Type} (buf : List α) (dir alert_id ts : String) :
    Option String × List α :=
  if buf.isEmpty then (none, buf)
  else (some (dir ++ "/" ++ "alert_" ++ alert_id ++ "_" ++ ts ++ ".mp4"), buf)

/-- `save_alert_audio`: `None` when the audio buffer is empty; otherwise
the code builds `np.array(self.audio_buffer)`, re-checks `len > 0`
(redundant given the first guard), normalizes a copy, writes the WAV and
returns its path; the buffer is only read. -/
def save_alert_audio (buf : List ℚ) (dir alert_id ts : String) :
    Option String × List ℚ :=
  if buf.isEmpty then (none, buf)
  else if buf.length > 0 then
    (some (dir ++ "/" ++ "alert_" ++ alert_id ++ "_" ++ ts ++ ".wav"), buf)
  else (none, buf)

/-- C9: evidence export returns `none` exactly when the corresponding
buffer is empty, and leaves the buffer's contents unchanged whether or not
an artifact was produced. -/
theorem claim_C9 {α : Type} : ∀ (buf : List α) (abuf : List ℚ)
    (dir aid ts : String),
    ((save_alert_video buf dir aid ts).1 = none ↔ buf = [])
    ∧ (save_alert_video buf dir aid ts).2 = buf
    ∧ ((save_alert_audio abuf dir aid ts).1 = none ↔ abuf = [])
    ∧ (save_alert_audio abuf dir aid ts).2 = abuf := by
  intro buf abuf dir aid ts
  refine ⟨?_, ?_, ?_, ?_⟩
  · cases buf with
    | nil => simp [save_alert_video]
    | cons x xs => simp [save_alert_video]
  · cases buf with
    | nil => rfl
    | cons x xs => rfl
  · cases abuf with
    | nil => simp [save_alert_audio]
    | cons x xs => simp [save_alert_audio]
  · cases abuf with
    | nil => rfl
    | cons x xs => simp [save_alert_audio]
